import Mathlib

/- Verification development for the joyandco product crawler.

   The definitions below are a shallow embedding of crawler.py: pure string
   and list functions model the Python string operations, the parsed HTML
   document (BeautifulSoup) is modelled as an abstract Page structure whose
   query functions return the same shapes the code inspects, and the network
   is modelled as an oracle mapping a URL to the outcome of the HEAD request.
   The theorems at the end of the file settle the frozen claims. -/

namespace Crawler

/-! Helpers modelling Python string primitives over character lists. -/

/-- Models Python str.startswith. -/
def strStartsWith (s p : String) : Bool := p.data.isPrefixOf s.data

/-- Models Python str.endswith. -/
def strEndsWith (s p : String) : Bool := p.data.reverse.isPrefixOf s.data.reverse

/-- Auxiliary scanner for substring containment. -/
def subList (needle : List Char) : List Char → Bool
  | [] => needle.isEmpty
  | c :: cs => needle.isPrefixOf (c :: cs) || subList needle cs

/-- Models the Python expression needle in hay on strings. -/
def substrOf (needle hay : String) : Bool := subList needle.data hay.data

/-- Models Python str.lower (ASCII case folding). -/
def lcStr (s : String) : String := ⟨s.data.map Char.toLower⟩

/-- Models Python str.strip: drop leading and trailing whitespace. -/
def pyStrip (s : String) : String :=
  ⟨((s.data.dropWhile Char.isWhitespace).reverse.dropWhile Char.isWhitespace).reverse⟩

/-- Replaces the leftmost occurrence of pat, as Python str.replace with count 1. -/
def replaceFirstAux (pat rep : List Char) : List Char → List Char
  | [] => []
  | c :: cs =>
    if pat.isPrefixOf (c :: cs) then rep ++ (c :: cs).drop pat.length
    else c :: replaceFirstAux pat rep cs

/-- Models Python s.replace(pat, rep, 1). -/
def pyReplaceFirst (s pat rep : String) : String := ⟨replaceFirstAux pat.data rep.data s.data⟩

/-- Splits a character list at every occurrence of the separator character,
as Python str.split with an explicit separator. -/
def splitOnChar (sep : Char) : List Char → List (List Char)
  | [] => [[]]
  | x :: xs =>
    let r := splitOnChar sep xs
    if x = sep then [] :: r
    else match r with
      | h :: t => (x :: h) :: t
      | [] => [[x]]

/-- Models Python url.split with separator the slash character. -/
def pySplitSlash (s : String) : List String := (splitOnChar '/' s.data).map (fun l => ⟨l⟩)

/-! Constants of crawler.py. -/

/-- The site base URL constant of crawler.py. -/
def BASE_URL : String := "https://joyandco.com"

/-- The fixed default price used when no price is found. -/
def default_price : String := "99.00"

/-! Image validator (crawler.py, validate_and_fix_image_url). -/

/-- Outcome of the external HEAD request issued by the image validator: a
response with a status code and content type, a requests.RequestException,
or any other exception. The network is passed into the embedding as an
oracle from URL to HeadOutcome. -/
inductive HeadOutcome where
  | resp (status : Nat) (contentType : String)
  | netError (msg : String)
  | exn (msg : String)

/-- The HTTPS coercion performed at the start of validate_and_fix_image_url:
http becomes https, protocol-relative URLs gain https, root-relative paths
are joined to the base URL, and anything else that is not already https is
rejected with the error message of the original. -/
def coerce_https (image_url : String) : Except String String :=
  if strStartsWith image_url "http://" then
    Except.ok (pyReplaceFirst image_url "http://" "https://")
  else if strStartsWith image_url "//" then
    Except.ok ("https:" ++ image_url)
  else if strStartsWith image_url "https://" then
    Except.ok image_url
  else if strStartsWith image_url "/" then
    Except.ok (BASE_URL ++ image_url)
  else
    Except.error "Image URL must use HTTPS protocol"

/-- Embedding of validate_and_fix_image_url: returns the triple
(is_valid, corrected_url, error_message). A failed HEAD request with a
RequestException is accepted optimistically; a non-200 status or a content
type not beginning with image/ is a failure. -/
def validate_and_fix_image_url (head : String → HeadOutcome) (image_url : String) :
    Bool × Option String × Option String :=
  if image_url = "" then (false, none, some "No image URL provided")
  else
    match coerce_https image_url with
    | Except.error e => (false, some image_url, some e)
    | Except.ok url =>
      match head url with
      | HeadOutcome.resp status ct =>
        if status ≠ 200 then
          (false, some url, some ("HTTP " ++ toString status ++ " error accessing image"))
        else if strStartsWith (lcStr ct) "image/" = false then
          (false, some url, some ("URL does not point to an image (content-type: " ++ lcStr ct ++ ")"))
        else (true, some url, none)
      | HeadOutcome.netError _ => (true, some url, none)
      | HeadOutcome.exn m => (false, some url, some ("Image validation error: " ++ m))

/-- The ordered fallback image candidates of get_fallback_image_for_meta. -/
def fallback_options : List String :=
  [BASE_URL ++ "/images/default-product-500x500.jpg",
   BASE_URL ++ "/assets/default-product.jpg",
   "https://via.placeholder.com/500x500/CCCCCC/FFFFFF?text=Product+Image"]

/-- The unconditional final placeholder returned when every fallback fails. -/
def final_fallback_image : String :=
  "https://via.placeholder.com/500x500/CCCCCC/FFFFFF?text=No+Image"

/-- The recurring idiom is_valid and validated_url of one validation call:
the corrected URL when validation succeeds, none otherwise. A valid result
always carries a corrected URL, so only that shape is matched. -/
def valid_url_of (head : String → HeadOutcome) (u : String) : Option String :=
  match validate_and_fix_image_url head u with
  | (true, some v, _) => some v
  | _ => none

/-- Embedding of get_fallback_image_for_meta: the first fallback option that
validates is returned, otherwise the final static placeholder. -/
def get_fallback_image_for_meta (head : String → HeadOutcome) : String :=
  match fallback_options.findSome? (valid_url_of head) with
  | some v => v
  | none => final_fallback_image

/-! Product records and the batch image validation. -/

/-- The canonical extracted product record of crawler.py. The image link is
an Option so that a record lacking the field (a Python dict without the key,
or a None value) can be expressed for the batch validator. -/
structure Product where
  id : String
  title : String
  description : String
  price : String
  currency : String
  image_link : Option String
  availability : String
  condition : String
  link : String
  brand : String
deriving DecidableEq

/-- The loop body of batch_validate_images_for_meta for one record: a record
with a truthy image link keeps its validated URL when validation succeeds
and is otherwise given the fallback image; a record with a missing or empty
image link is given the fallback image directly. -/
def batch_step (head : String → HeadOutcome) (product : Product) : Product :=
  match product.image_link with
  | some s =>
    if s ≠ "" then
      match validate_and_fix_image_url head s with
      | (true, v, _) => { product with image_link := v }
      | (false, _, _) => { product with image_link := some (get_fallback_image_for_meta head) }
    else { product with image_link := some (get_fallback_image_for_meta head) }
  | none => { product with image_link := some (get_fallback_image_for_meta head) }

/-- Embedding of batch_validate_images_for_meta: the loop appends exactly
one transformed record per input record, in order. -/
def batch_validate_images_for_meta (head : String → HeadOutcome) (products : List Product) :
    List Product :=
  products.map (batch_step head)

/-! Fetcher (crawler.py, get_page_content). The network is an oracle from
the attempt index to the result of that GET request; the sleeps and the
random jitter have no observable effect on the returned value and are not
modelled. -/

/-- The retry loop of get_page_content: while the retry counter is below
max_retries, attempt the request; a successful attempt returns immediately
and a failure increments the counter. The second component counts the
attempts actually issued. -/
def fetch_go (fetch : Nat → Option String) (retries : Nat) : Nat → Option String × Nat
  | 0 => (none, 0)
  | n + 1 =>
    match fetch retries with
    | some s => (some s, 1)
    | none =>
      let r := fetch_go fetch (retries + 1) n
      (r.1, r.2 + 1)

/-- Embedding of get_page_content: the result returned for a URL given the
per-attempt outcomes and the retry bound (default 3). -/
def get_page_content (fetch : Nat → Option String) (max_retries : Nat) : Option String :=
  (fetch_go fetch 0 max_retries).1

/-- The number of GET attempts get_page_content issues. -/
def fetch_attempts (fetch : Nat → Option String) (max_retries : Nat) : Nat :=
  (fetch_go fetch 0 max_retries).2

/-! Abstract model of the parsed HTML document. -/

/-- A JSON value as inspected by the crawler: the code only distinguishes
strings, lists and dicts, and reads dict fields by key. Other shapes are
collapsed into one constructor. -/
inductive JVal where
  | str (s : String)
  | arr (xs : List JVal)
  | obj (fields : List (String × JVal))
  | other

/-- Dict lookup: some value when the receiver is a dict containing the key,
none otherwise (matching the isinstance dict checks plus the in operator). -/
def JVal.get? : JVal → String → Option JVal
  | JVal.obj fs, k => (fs.find? (fun kv => kv.1 == k)).map (fun kv => kv.2)
  | _, _ => none

/-- The repeated check isinstance(json_data, dict) and json_data at key
@type equals the string Product. -/
def JVal.isProduct (j : JVal) : Bool :=
  match j.get? "@type" with
  | some (JVal.str s) => s == "Product"
  | _ => false

/-- An element returned by a CSS query: its text, and its src and data-src
attributes when present. -/
structure Elem where
  text : String := ""
  src : Option String := none
  dataSrc : Option String := none
deriving DecidableEq

/-- The parsed page as the crawler queries it: the title element text, the
results of CSS select calls, the og:image and twitter:image meta contents,
the parse result of each ld+json script (none when json.loads raises), all
img elements, and the brand meta content. -/
structure Page where
  titleTag : Option String := none
  select : String → List Elem := fun _ => []
  ogImage : Option String := none
  twitterImage : Option String := none
  jsonLdScripts : List (Option JVal) := []
  allImgs : List Elem := []
  brandMeta : Option String := none

/-! Price extraction (crawler.py lines 172 to 215). -/

/-- The ordered price CSS selectors. -/
def price_selectors : List String :=
  [".price", ".product-price", ".productPrice", "#price",
   "[itemprop=\"price\"]", ".amount", ".current-price",
   ".total-price", ".product-single__price", ".money",
   ".product-info__price"]

/-- Case-insensitive literal match at the head of the input, returning the
rest on success. -/
def lcMatch : List Char → List Char → Option (List Char)
  | [], cs => some cs
  | _ :: _, [] => none
  | l :: ls, c :: cs => if Char.toLower c == Char.toLower l then lcMatch ls cs else none

/-- Greedy match of a digit run, an optional decimal point and further
digits at the head of the input; returns the token and the rest. -/
def numTokenAt (cs : List Char) : Option (List Char × List Char) :=
  let d1 := cs.takeWhile Char.isDigit
  let r1 := cs.dropWhile Char.isDigit
  if d1.isEmpty then none
  else match r1 with
    | '.' :: r2 =>
      let d2 := r2.takeWhile Char.isDigit
      let r3 := r2.dropWhile Char.isDigit
      some (d1 ++ '.' :: d2, r3)
    | _ => some (d1, r1)

/-- First numeric token anywhere in the string: the first result of
re.findall applied to the digit pattern, none when there is no match. -/
def firstNumGo : List Char → Option String
  | [] => none
  | c :: cs =>
    if c.isDigit then
      match numTokenAt (c :: cs) with
      | some (tok, _) => some ⟨tok⟩
      | none => none
    else firstNumGo cs

/-- Models re.findall of the digit pattern on element text, keeping the
first match as the code does. -/
def firstNumToken (s : String) : Option String := firstNumGo s.data

/-- The character class of quote, colon and whitespace appearing after the
key word in the first two raw-markup price patterns. -/
def isQuoteColonSpace (c : Char) : Bool :=
  c.toNat == 39 || c.toNat == 34 || c == ':' || c.isWhitespace

/-- Match at one position for the patterns keyed by a word (price or
amount) followed by one or more quote, colon or whitespace characters and a
captured numeric token. -/
def wordPriceAt (word : String) (cs : List Char) : Option String :=
  match lcMatch word.data cs with
  | none => none
  | some r =>
    if (r.takeWhile isQuoteColonSpace).isEmpty then none
    else match numTokenAt (r.dropWhile isQuoteColonSpace) with
      | some (tok, _) => some ⟨tok⟩
      | none => none

/-- Case-insensitive match of one of the currency words AED, USD, EUR at the
head of the input. -/
def currencyAt (cs : List Char) : Option (List Char) :=
  match lcMatch "AED".data cs with
  | some r => some r
  | none =>
    match lcMatch "USD".data cs with
    | some r => some r
    | none => lcMatch "EUR".data cs

/-- Match at one position for the pattern of a currency word, optional
whitespace and a captured numeric token. -/
def p3At (cs : List Char) : Option String :=
  match currencyAt cs with
  | none => none
  | some r =>
    match numTokenAt (r.dropWhile Char.isWhitespace) with
    | some (tok, _) => some ⟨tok⟩
    | none => none

/-- Match at one position for the pattern of a captured numeric token,
optional whitespace and a currency word. The regex backtracks over the
numeric token; an endpoint that stops inside a digit run is always followed
by a digit and can never be followed by the whitespace-then-currency tail,
so only the three listed endpoints are live. -/
def p4At (cs : List Char) : Option String :=
  let d1 := cs.takeWhile Char.isDigit
  let r1 := cs.dropWhile Char.isDigit
  if d1.isEmpty then none
  else
    let cands : List (List Char × List Char) :=
      match r1 with
      | '.' :: r2 =>
        let d2 := r2.takeWhile Char.isDigit
        let r3 := r2.dropWhile Char.isDigit
        if d2.isEmpty then [(d1 ++ ['.'], r3), (d1, r1)]
        else [(d1 ++ '.' :: d2, r3), (d1 ++ ['.'], r2), (d1, r1)]
      | _ => [(d1, r1)]
    cands.findSome? (fun td =>
      if (currencyAt (td.2.dropWhile Char.isWhitespace)).isSome then some ⟨td.1⟩ else none)

/-- Leftmost-position scan, as re.search: try the position matcher at every
suffix from the left. -/
def searchList (f : List Char → Option String) : List Char → Option String
  | [] => none
  | c :: cs =>
    match f (c :: cs) with
    | some x => some x
    | none => searchList f cs

/-- re.search for the first raw-markup price pattern (keyed by price). -/
def searchP1 (html : String) : Option String := searchList (wordPriceAt "price") html.data

/-- re.search for the second raw-markup price pattern (keyed by amount). -/
def searchP2 (html : String) : Option String := searchList (wordPriceAt "amount") html.data

/-- re.search for the third raw-markup price pattern (currency then number). -/
def searchP3 (html : String) : Option String := searchList p3At html.data

/-- re.search for the fourth raw-markup price pattern (number then currency). -/
def searchP4 (html : String) : Option String := searchList p4At html.data

/-- The truthiness test on the captured group before it is accepted. -/
def checkGroup : Option String → Option String
  | some g => if g ≠ "" then some g else none
  | none => none

/-- The ordered raw-markup price pattern cascade: the first pattern whose
search yields a truthy captured group wins. -/
def patternPrice (html : String) : Option String :=
  match checkGroup (searchP1 html) with
  | some g => some g
  | none =>
    match checkGroup (searchP2 html) with
    | some g => some g
    | none =>
      match checkGroup (searchP3 html) with
      | some g => some g
      | none => checkGroup (searchP4 html)

/-- The price selector loop: the first element of the first selector whose
stripped text contains a numeric token supplies the price. -/
def selectorPrice (page : Page) : Option String :=
  price_selectors.findSome? (fun sel =>
    (page.select sel).findSome? (fun e => firstNumToken (pyStrip e.text)))

/-- The full price extraction: selector loop, then the raw-markup pattern
cascade, then the fixed default price. -/
def extractPrice (page : Page) (html : String) : String :=
  match selectorPrice page with
  | some p => p
  | none =>
    match patternPrice html with
    | some p => p
    | none => default_price

/-! Description extraction. -/

/-- The ordered description CSS selectors. -/
def description_selectors : List String :=
  [".product-description", ".description", "[itemprop=\"description\"]",
   ".product-single__description", ".product-description-container",
   ".product-details", ".details"]

/-- The description loop over select_one results, falling back to the title
when every selector yields nothing truthy. -/
def extractDescription (page : Page) (title : String) : String :=
  match description_selectors.findSome? (fun sel =>
      match (page.select sel).head? with
      | some e => if pyStrip e.text ≠ "" then some (pyStrip e.text) else none
      | none => none) with
  | some d => d
  | none => title

/-! Image extraction. -/

/-- The ordered image CSS selectors. -/
def image_selectors : List String :=
  [".product-featured-img", ".product-single__photo img",
   ".product-image img", ".product-photo img",
   ".carousel-item.active img", ".slick-active img",
   ".gallery img:first-child", ".product img:first-child",
   "#product-image", ".main-product-image img"]

/-- The truthiness and filter conditions applied to a candidate source
attribute: present, not an svg, and not placeholder-looking. -/
def candidate_filter (s : String) : Bool :=
  !(s == "") && !(strEndsWith s ".svg") && !(substrOf "placeholder" (lcStr s))

/-- Open Graph meta image candidate. -/
def og_candidates (page : Page) : List (String × String) :=
  match page.ogImage with
  | some c => if c ≠ "" then [("og:image", c)] else []
  | none => []

/-- Twitter card meta image candidate. -/
def twitter_candidates (page : Page) : List (String × String) :=
  match page.twitterImage with
  | some c => if c ≠ "" then [("twitter:image", c)] else []
  | none => []

/-- JSON-LD product image candidate of one script: a string image, or the
first member of a non-empty list. Only string members are modelled; the
original would append a value of another shape and fail on it later. -/
def script_image_candidates (s : Option JVal) : List (String × String) :=
  match s with
  | some j =>
    if j.isProduct then
      match j.get? "image" with
      | some (JVal.str i) => [("json-ld", i)]
      | some (JVal.arr (JVal.str i :: _)) => [("json-ld", i)]
      | _ => []
    else []
  | none => []

/-- Candidates from the ordered CSS image selectors: the src and then the
data-src attribute of every matched element, each filtered. -/
def selector_candidates (page : Page) : List (String × String) :=
  image_selectors.flatMap (fun sel =>
    (page.select sel).flatMap (fun e =>
      (match e.src with
       | some s => if candidate_filter s then [("selector-" ++ sel, s)] else []
       | none => []) ++
      (match e.dataSrc with
       | some s => if candidate_filter s then [("data-src-" ++ sel, s)] else []
       | none => [])))

/-- Candidates from the general img scan: any img whose src passes the
filters, avoids logos, and hints at product or upload content. -/
def general_candidates (page : Page) : List (String × String) :=
  page.allImgs.flatMap (fun e =>
    match e.src with
    | some s =>
      if candidate_filter s && !(substrOf "logo" (lcStr s))
          && (substrOf "product" (lcStr s) || substrOf "item" (lcStr s)
              || substrOf "/uploads/" (lcStr s)) then
        [("general-search", s)]
      else []
    | none => [])

/-- All image candidates in tier order: Open Graph, Twitter, JSON-LD,
selector hits, general scan. -/
def gatherImageCandidates (page : Page) : List (String × String) :=
  og_candidates page ++ twitter_candidates page
    ++ page.jsonLdScripts.flatMap script_image_candidates
    ++ selector_candidates page ++ general_candidates page

/-- Models urllib.parse.urljoin for the plain relative paths that occur
here: the reference is resolved against the root of the base URL. -/
def urljoin_model (base rel : String) : String := base ++ "/" ++ rel

/-- The absolutization applied to each candidate before validation. -/
def absolutize (u : String) : String :=
  if strStartsWith u "/" then BASE_URL ++ u
  else if !(strStartsWith u "http://" || strStartsWith u "https://") then
    urljoin_model BASE_URL u
  else u

/-- The candidate loop: the first candidate that validates supplies the
image URL. -/
def pickImage (head : String → HeadOutcome) (cands : List (String × String)) : Option String :=
  cands.findSome? (fun c => valid_url_of head (absolutize c.2))

/-- The full image extraction with the fallback when no candidate is valid. -/
def extractImage (head : String → HeadOutcome) (page : Page) : String :=
  match pickImage head (gatherImageCandidates page) with
  | some u => u
  | none => get_fallback_image_for_meta head

/-! Availability extraction (crawler.py lines 316 to 374). -/

/-- Decision of one JSON-LD script: the availability string of a product
offer decides out of stock before in stock by substring containment; a
script without a decision yields none. Only a string-valued availability is
modelled. -/
def scriptAvail (s : Option JVal) : Option String :=
  match s with
  | some j =>
    if j.isProduct then
      match j.get? "offers" with
      | some offers =>
        match offers.get? "availability" with
        | some (JVal.str a) =>
          if substrOf "OutOfStock" a then some "out of stock"
          else if substrOf "InStock" a then some "in stock"
          else none
        | _ => none
      | none => none
    else none
  | none => none

/-- The first JSON-LD script that decides availability, as the loop with
its break. -/
def availFromJsonLd (scripts : List (Option JVal)) : Option String :=
  scripts.findSome? scriptAvail

/-- The out-of-stock indicator selectors. -/
def out_of_stock_selectors : List String :=
  [".sold-out", ".out-of-stock", ".product-unavailable",
   ".product-out-of-stock", ".product-inventory.out-of-stock"]

/-- The fixed phrase to status table. -/
def stock_phrases : List (String × String) :=
  [("out of stock", "out of stock"), ("sold out", "out of stock"),
   ("unavailable", "out of stock"), ("currently unavailable", "out of stock"),
   ("back in stock soon", "out of stock"), ("in stock", "in stock"),
   ("available for purchase", "in stock"), ("ships immediately", "in stock")]

/-- The product-context container selector used by the phrase search. -/
def product_context_selector : String :=
  ".product-single, .product-info, .product-details, .availability, .inventory, .product-form"

/-- Embedding of the availability section: the default is in stock; the
JSON-LD loop may overwrite it; the out-of-stock selector check then
overwrites that when any selector matches; finally the phrase loop runs over
the whole table, each matching phrase overwriting the current value (the
inner break only stops the element scan). -/
def extractAvailability (page : Page) : String :=
  let a1 :=
    match availFromJsonLd page.jsonLdScripts with
    | some v => v
    | none => "in stock"
  let a2 :=
    if out_of_stock_selectors.any (fun sel => !(page.select sel).isEmpty) then "out of stock"
    else a1
  stock_phrases.foldl
    (fun acc p =>
      if (page.select product_context_selector).any
          (fun e => substrOf (lcStr p.1) (lcStr e.text)) then p.2
      else acc)
    a2

/-! Brand and id extraction. -/

/-- Brand of one JSON-LD script: a brand dict with a name, or a string
brand. Only string-valued names are modelled. -/
def scriptBrand (s : Option JVal) : Option String :=
  match s with
  | some j =>
    if j.isProduct then
      match j.get? "brand" with
      | some (JVal.obj fs) =>
        match (fs.find? (fun kv => kv.1 == "name")).map (fun kv => kv.2) with
        | some (JVal.str n) => some n
        | _ => none
      | some (JVal.str b) => some b
      | _ => none
    else none
  | none => none

/-- The brand extraction: the brand meta content when truthy, else the first
JSON-LD brand, else the fixed site brand. -/
def extractBrand (page : Page) : String :=
  match page.brandMeta with
  | some c =>
    if c ≠ "" then c
    else
      match page.jsonLdScripts.findSome? scriptBrand with
      | some b => b
      | none => "Joy and Co"
  | none =>
    match page.jsonLdScripts.findSome? scriptBrand with
    | some b => b
    | none => "Joy and Co"

/-- Strips a trailing file extension, as re.sub of a final dot segment: the
suffix after the last dot is removed when it is non-empty and contains
neither a dot nor a slash. -/
def stripExt (s : String) : String :=
  let rev := s.data.reverse
  let ext := rev.takeWhile (fun c => !(c == '.') && !(c == '/'))
  match rev.drop ext.length with
  | '.' :: rest => if ext.isEmpty then s else ⟨rest.reverse⟩
  | _ => s

/-- The id derivation: the last slash-separated segment of the URL, or the
one before it when the last is empty (a single-segment URL with an empty
last segment raises in the original and is modelled as the empty string),
with a trailing file extension stripped. -/
def extractId (url : String) : String :=
  let parts := pySplitSlash url
  let lastPart := (parts.getLast?).getD ""
  let pid := if lastPart ≠ "" then lastPart else (parts.get? (parts.length - 2)).getD ""
  stripExt pid

/-! The field extractor (crawler.py, extract_product_data). -/

/-- Embedding of extract_product_data: the parser oracle stands for
BeautifulSoup, the head oracle for the HEAD requests of the image
validation. Empty page content yields the designated failure; otherwise a
record is always assembled from the per-field extractions. -/
def extract_product_data (head : String → HeadOutcome) (parse : String → Page)
    (url html_content : String) : Option Product :=
  if html_content = "" then none
  else
    let page := parse html_content
    let title :=
      match page.titleTag with
      | some t => pyStrip t
      | none => ""
    some
      { id := extractId url
        title := title
        description := extractDescription page title
        price := extractPrice page html_content
        currency := "AED"
        image_link := some (extractImage head page)
        availability := extractAvailability page
        condition := "new"
        link := url
        brand := extractBrand page }

/-! Feed files written for an empty product set (crawler.py, main). Both the
no-input branch and the all-extractions-failed branch write these same
literal contents to the same eight paths. -/

/-- The Google CSV header line. -/
def google_csv_header : String :=
  "id,title,description,link,image_link,price,currency,availability,condition,brand\n"

/-- The Meta CSV header line. -/
def meta_csv_header : String :=
  "id,title,description,link,image_link,price,availability,condition,brand\n"

/-- The empty Google Shopping XML document written by main. -/
def empty_google_xml : String :=
  "<?xml version=\"1.0\" encoding=\"utf-8\"?>\n<rss version=\"2.0\" xmlns:g=\"http://base.google.com/ns/1.0\">\n<channel>\n<title>Joy and Co Product Feed</title>\n<link>https://joyandco.com</link>\n<description>Product feed for Google Shopping</description>\n</channel>\n</rss>"

/-- The empty Meta XML document written by main. -/
def empty_meta_xml : String :=
  "<?xml version=\"1.0\" encoding=\"utf-8\"?>\n<feed>\n</feed>"

/-- The path and content of every feed file written when the extracted
record set is empty: the four organized feeds and the four compatibility
copies. -/
def empty_run_feed_writes : List (String × String) :=
  [("feeds/google/shopping_feed.csv", google_csv_header),
   ("feeds/google/shopping_feed.xml", empty_google_xml),
   ("feeds/meta/shopping_feed.xml", empty_meta_xml),
   ("feeds/meta/shopping_feed.csv", meta_csv_header),
   ("feeds/google_shopping_feed.csv", google_csv_header),
   ("feeds/google_shopping_feed.xml", empty_google_xml),
   ("feeds/meta_shopping_feed.xml", empty_meta_xml),
   ("feeds/meta_shopping_feed.csv", meta_csv_header)]

/-- Number of newline characters in a string, used to count CSV rows. -/
def newlineCount (s : String) : Nat := (s.data.filter (fun c => c == '\n')).length

/-- A well-formed empty XML root: the document contains a matched root
element and is inspected for item children by substring. -/
def xmlHasRoot (s : String) : Bool :=
  (substrOf "<rss" s && substrOf "</rss>" s) || (substrOf "<feed>" s && substrOf "</feed>" s)

/-! Concrete inputs used by witnesses and counterexamples. -/

/-- A network oracle on which every HEAD request fails with a transport
error. -/
def constNetErrorHead : String → HeadOutcome := fun _ => HeadOutcome.netError "connection refused"

/-- A network oracle on which every HEAD request returns status 404. -/
def notFoundHead : String → HeadOutcome := fun _ => HeadOutcome.resp 404 ""

/-- A page with no signal for any extractor. -/
def emptyPage : Page := {}

/-- A parser oracle producing the empty page for every input. -/
def noSignalParse : String → Page := fun _ => emptyPage

/-- A page whose JSON-LD declares the product out of stock while a
product-context container contains the phrase ships immediately. -/
def c3Page : Page :=
  { jsonLdScripts :=
      [some (JVal.obj
        [("@type", JVal.str "Product"),
         ("offers", JVal.obj [("availability", JVal.str "http://schema.org/OutOfStock")])])],
    select := fun sel =>
      if sel = product_context_selector then [{ text := "ships immediately" }] else [] }

/-- Per-attempt outcomes on which the first three GET attempts fail and a
fourth would succeed. -/
def c6Fetch : Nat → Option String := fun n => if 3 ≤ n then some "ok" else none

/-- A concrete product record with no image link. -/
def sampleProduct : Product :=
  { id := "p1", title := "T", description := "D", price := "10.00", currency := "AED",
    image_link := none, availability := "in stock", condition := "new",
    link := "https://joyandco.com/product/p1", brand := "Joy and Co" }

/-- A concrete product record with a plain-http image link. -/
def httpImageProduct : Product :=
  { sampleProduct with id := "p2", image_link := some "http://cdn.example.com/p2.png" }

/-! Helper lemmas. -/

lemma isPrefixOf_append_self (l t : List Char) : l.isPrefixOf (l ++ t) = true := by
  induction l with
  | nil => simp [List.isPrefixOf]
  | cons c cs ih => simp [List.isPrefixOf, ih]

lemma exists_append_of_isPrefixOf :
    ∀ {l m : List Char}, l.isPrefixOf m = true → ∃ t, m = l ++ t := by
  intro l
  induction l with
  | nil => exact fun {m} _ => ⟨m, rfl⟩
  | cons c cs ih =>
    intro m h
    cases m with
    | nil => simp [List.isPrefixOf] at h
    | cons b bs =>
      simp only [List.isPrefixOf, Bool.and_eq_true, beq_iff_eq] at h
      obtain ⟨t, ht⟩ := ih h.2
      exact ⟨t, by rw [ht, h.1, List.cons_append]⟩

lemma strStartsWith_of_data {s p : String} {t : List Char} (h : s.data = p.data ++ t) :
    strStartsWith s p = true := by
  unfold strStartsWith
  rw [h]
  exact isPrefixOf_append_self _ _

lemma data_of_strStartsWith {s p : String} (h : strStartsWith s p = true) :
    ∃ t, s.data = p.data ++ t :=
  exists_append_of_isPrefixOf h

lemma ne_empty_of_data_ne_nil {s : String} (h : s.data ≠ []) : s ≠ "" := by
  intro he
  exact h (by rw [he])

lemma replaceFirstAux_head (pat rep t : List Char) (h : pat ≠ []) :
    replaceFirstAux pat rep (pat ++ t) = rep ++ t := by
  cases pat with
  | nil => exact absurd rfl h
  | cons c cs =>
    show replaceFirstAux (c :: cs) rep (c :: (cs ++ t)) = rep ++ t
    unfold replaceFirstAux
    have hp : (c :: cs).isPrefixOf (c :: (cs ++ t)) = true := isPrefixOf_append_self (c :: cs) t
    rw [if_pos hp]
    show rep ++ ((c :: cs) ++ t).drop (c :: cs).length = rep ++ t
    rw [List.drop_left]

lemma pyReplaceFirst_on_prefixed {u pre rep : String} {t : List Char}
    (hp : pre.data ≠ []) (h : u.data = pre.data ++ t) :
    pyReplaceFirst u pre rep = ⟨rep.data ++ t⟩ := by
  unfold pyReplaceFirst
  rw [h, replaceFirstAux_head _ _ _ hp]

lemma coerce_https_ok {u url : String} (h : coerce_https u = Except.ok url) :
    url ≠ "" ∧ strStartsWith url "https://" = true := by
  unfold coerce_https at h
  split at h
  case isTrue hc =>
    injection h with h
    obtain ⟨t, ht⟩ := data_of_strStartsWith hc
    rw [pyReplaceFirst_on_prefixed (by decide) ht] at h
    subst h
    constructor
    · apply ne_empty_of_data_ne_nil
      show "https://".data ++ t ≠ []
      simp [List.append_eq_nil]
    · exact strStartsWith_of_data rfl
  case isFalse =>
    split at h
    case isTrue hc =>
      injection h with h
      obtain ⟨t, ht⟩ := data_of_strStartsWith hc
      subst h
      have hd : ("https:" ++ u).data = "https://".data ++ t := by
        show "https:".data ++ u.data = "https://".data ++ t
        rw [ht]
        rfl
      constructor
      · apply ne_empty_of_data_ne_nil
        rw [hd]
        simp [List.append_eq_nil]
      · exact strStartsWith_of_data hd
    case isFalse =>
      split at h
      case isTrue hc =>
        injection h with h
        subst h
        obtain ⟨t, ht⟩ := data_of_strStartsWith hc
        constructor
        · apply ne_empty_of_data_ne_nil
          rw [ht]
          simp [List.append_eq_nil]
        · exact hc
      case isFalse =>
        split at h
        case isTrue =>
          injection h with h
          subst h
          have hd : (BASE_URL ++ u).data = "https://".data ++ ("joyandco.com".data ++ u.data) := by
            show "https://joyandco.com".data ++ u.data = "https://".data ++ ("joyandco.com".data ++ u.data)
            rw [← List.append_assoc]
            rfl
          constructor
          · apply ne_empty_of_data_ne_nil
            rw [hd]
            simp [List.append_eq_nil]
          · exact strStartsWith_of_data hd
        case isFalse => exact absurd h (by simp)

lemma validate_snd_of_coerce {head : String → HeadOutcome} {u url : String}
    (hu : u ≠ "") (hc : coerce_https u = Except.ok url) :
    (validate_and_fix_image_url head u).2.1 = some url := by
  unfold validate_and_fix_image_url
  rw [if_neg hu, hc]
  dsimp only
  cases head url with
  | resp status ct =>
    dsimp only
    split
    · rfl
    · split <;> rfl
  | netError m => rfl
  | exn m => rfl

lemma validate_fst_true {head : String → HeadOutcome} {u : String}
    (h : (validate_and_fix_image_url head u).1 = true) :
    ∃ s, (validate_and_fix_image_url head u).2.1 = some s
      ∧ s ≠ "" ∧ strStartsWith s "https://" = true := by
  by_cases hu : u = ""
  · subst hu
    simp [validate_and_fix_image_url] at h
  · unfold validate_and_fix_image_url at h ⊢
    rw [if_neg hu] at h ⊢
    cases hc : coerce_https u with
    | error e =>
      rw [hc] at h
      simp at h
    | ok url =>
      rw [hc] at h
      obtain ⟨hne, hpre⟩ := coerce_https_ok hc
      dsimp only at h ⊢
      cases hh : head url with
      | resp status ct =>
        rw [hh] at h
        dsimp only at h ⊢
        split at h
        · simp at h
        · split at h
          · simp at h
          · rename_i hst hct
            rw [if_neg hst, if_neg hct]
            exact ⟨url, rfl, hne, hpre⟩
      | netError m =>
        exact ⟨url, rfl, hne, hpre⟩
      | exn m =>
        rw [hh] at h
        simp at h

lemma valid_url_of_some {head : String → HeadOutcome} {u v : String}
    (h : valid_url_of head u = some v) :
    v ≠ "" ∧ strStartsWith v "https://" = true := by
  unfold valid_url_of at h
  rcases hv : validate_and_fix_image_url head u with ⟨b, w, e⟩
  rw [hv] at h
  cases b with
  | false => cases w <;> simp at h
  | true =>
    cases w with
    | none => simp at h
    | some x =>
      have hb : (validate_and_fix_image_url head u).1 = true := by rw [hv]
      obtain ⟨s, hs, hsne, hsp⟩ := validate_fst_true hb
      rw [hv] at hs
      dsimp only at hs h
      injection hs with hxs
      injection h with hxv
      rw [← hxv, hxs]
      exact ⟨hsne, hsp⟩

lemma exists_of_findSome?_some {α β : Type} {f : α → Option β} :
    ∀ {l : List α} {b : β}, l.findSome? f = some b → ∃ a ∈ l, f a = some b := by
  intro l
  induction l with
  | nil => intro b h; simp [List.findSome?] at h
  | cons x xs ih =>
    intro b h
    rw [List.findSome?_cons] at h
    cases hfx : f x with
    | some y =>
      rw [hfx] at h
      exact ⟨x, List.mem_cons_self x xs, by rw [hfx]; exact h⟩
    | none =>
      rw [hfx] at h
      obtain ⟨a, ha, hfa⟩ := ih h
      exact ⟨a, List.mem_cons_of_mem x ha, hfa⟩

lemma get_fallback_https (head : String → HeadOutcome) :
    get_fallback_image_for_meta head ≠ ""
      ∧ strStartsWith (get_fallback_image_for_meta head) "https://" = true := by
  unfold get_fallback_image_for_meta
  cases hf : fallback_options.findSome? (valid_url_of head) with
  | none => exact ⟨by decide, by decide⟩
  | some v =>
    obtain ⟨fb, hmem, hfb⟩ := exists_of_findSome?_some hf
    exact valid_url_of_some hfb

lemma batch_step_fields (head : String → HeadOutcome) (q : Product) :
    batch_step head q = { q with image_link := (batch_step head q).image_link } := by
  unfold batch_step
  cases hil : q.image_link with
  | none => rfl
  | some s =>
    dsimp only
    by_cases hse : s = ""
    · rw [if_neg (by simp [hse])]
    · rw [if_pos hse]
      rcases hv : validate_and_fix_image_url head s with ⟨b, w, e⟩
      cases b <;> rfl

lemma batch_step_fallback {head : String → HeadOutcome} {q : Product}
    (h : q.image_link = none ∨ q.image_link = some ""
      ∨ ∃ s, q.image_link = some s ∧ (validate_and_fix_image_url head s).1 = false) :
    (batch_step head q).image_link = some (get_fallback_image_for_meta head) := by
  unfold batch_step
  rcases h with h | h | ⟨s, hs, hv⟩
  · rw [h]
  · rw [h]
    dsimp only
    rw [if_neg (by simp)]
  · rw [hs]
    dsimp only
    by_cases hse : s = ""
    · subst hse
      rw [if_neg (by simp)]
    · rw [if_pos hse]
      rcases hvv : validate_and_fix_image_url head s with ⟨b, w, e⟩
      rw [hvv] at hv
      dsimp only at hv
      subst hv
      rfl

lemma batch_step_https (head : String → HeadOutcome) (q : Product) :
    ∃ s, (batch_step head q).image_link = some s
      ∧ s ≠ "" ∧ strStartsWith s "https://" = true := by
  unfold batch_step
  cases hil : q.image_link with
  | none => exact ⟨_, rfl, (get_fallback_https head).1, (get_fallback_https head).2⟩
  | some s =>
    dsimp only
    by_cases hse : s = ""
    · rw [if_neg (by simp [hse])]
      exact ⟨_, rfl, (get_fallback_https head).1, (get_fallback_https head).2⟩
    · rw [if_pos hse]
      rcases hv : validate_and_fix_image_url head s with ⟨b, w, e⟩
      cases b with
      | false => exact ⟨_, rfl, (get_fallback_https head).1, (get_fallback_https head).2⟩
      | true =>
        have hb : (validate_and_fix_image_url head s).1 = true := by rw [hv]
        obtain ⟨x, hx, hxne, hxp⟩ := validate_fst_true hb
        rw [hv] at hx
        dsimp only at hx
        exact ⟨x, hx, hxne, hxp⟩

lemma phrase_fold_no_match (page : Page) :
    ∀ (l : List (String × String)) (init : String),
      (∀ p ∈ l, (page.select product_context_selector).any
          (fun e => substrOf (lcStr p.1) (lcStr e.text)) = false) →
      l.foldl
        (fun acc p =>
          if (page.select product_context_selector).any
              (fun e => substrOf (lcStr p.1) (lcStr e.text)) then p.2
          else acc) init = init := by
  intro l
  induction l with
  | nil => intro init _; rfl
  | cons x xs ih =>
    intro init h
    rw [List.foldl_cons]
    simp only [h x (List.mem_cons_self x xs), Bool.false_eq_true, if_false]
    exact ih init (fun b hb => h b (List.mem_cons_of_mem x hb))

lemma get_map_of_lt {α β : Type} (f : α → β) (l : List α) (i : Nat)
    (h2 : i < (l.map f).length) (h1 : i < l.length) :
    (l.map f).get ⟨i, h2⟩ = f (l.get ⟨i, h1⟩) := by
  rw [List.get_eq_getElem, List.get_eq_getElem]
  exact List.getElem_map f

lemma fetch_go_attempts_le (fetch : Nat → Option String) :
    ∀ (n r : Nat), (fetch_go fetch r n).2 ≤ n := by
  intro n
  induction n with
  | zero => intro r; exact Nat.le_refl 0
  | succ n ih =>
    intro r
    unfold fetch_go
    cases fetch r with
    | some s => exact Nat.succ_le_succ (Nat.zero_le n)
    | none =>
      dsimp only
      exact Nat.succ_le_succ (ih (r + 1))

lemma fetch_go_all_none (fetch : Nat → Option String) :
    ∀ (n r : Nat), (∀ k, r ≤ k → k < r + n → fetch k = none) →
      fetch_go fetch r n = (none, n) := by
  intro n
  induction n with
  | zero => intro r _; rfl
  | succ n ih =>
    intro r h
    have h0 : fetch r = none := h r (Nat.le_refl r) (by omega)
    unfold fetch_go
    rw [h0]
    dsimp only
    rw [ih (r + 1) (fun k hk1 hk2 => h k (by omega) (by omega))]

/-! Claim theorems. -/

/-- C1, counterexample: on non-empty page HTML that yields no title (the
parsed page has no title element), the field extractor still emits a record,
and its title is the empty string. The extractor therefore does not emit
only-if the title is non-empty, and missing title does not yield the
designated failure. -/
theorem c1_counterexample :
    (extract_product_data constNetErrorHead noSignalParse "u" "x").map Product.title
      = some "" := by
  rfl

/-- C1, amended: for every product URL and every non-empty page HTML the
field extractor emits a ProductRecord regardless of the title (which may be
empty); the designated failure None occurs only for empty page content. -/
theorem c1_record_always_emitted (head : String → HeadOutcome) (parse : String → Page)
    (url html : String) (h : html ≠ "") :
    (extract_product_data head parse url html).isSome = true := by
  unfold extract_product_data
  rw [if_neg h]
  rfl

/-- C1, witness for the amended theorem at a concrete input. -/
theorem c1_witness :
    (extract_product_data constNetErrorHead noSignalParse "u" "x").isSome = true :=
  c1_record_always_emitted constNetErrorHead noSignalParse "u" "x" (by decide)

/-- C2: when no price selector yields an element whose stripped text
contains a digit run and none of the four ordered raw-markup price patterns
matches, the extracted record price equals the fixed default 99.00 and is
not the empty string. -/
theorem c2_missing_price_defaults (head : String → HeadOutcome) (parse : String → Page)
    (url html : String) (hh : html ≠ "")
    (hsel : ∀ sel ∈ price_selectors, ∀ e ∈ (parse html).select sel,
        firstNumToken (pyStrip e.text) = none)
    (h1 : searchP1 html = none) (h2 : searchP2 html = none)
    (h3 : searchP3 html = none) (h4 : searchP4 html = none) :
    (extract_product_data head parse url html).map Product.price = some default_price
      ∧ default_price ≠ "" := by
  refine ⟨?_, by decide⟩
  have hs : selectorPrice (parse html) = none :=
    List.findSome?_eq_none_iff.mpr (fun sel hm =>
      List.findSome?_eq_none_iff.mpr (hsel sel hm))
  have hp : patternPrice html = none := by
    unfold patternPrice
    rw [h1, h2, h3, h4]
    rfl
  unfold extract_product_data
  rw [if_neg hh]
  show some (extractPrice (parse html) html) = some default_price
  unfold extractPrice
  rw [hs]
  dsimp only
  rw [hp]

/-- C2, witness at a concrete input with no price signal. -/
theorem c2_witness :
    (extract_product_data constNetErrorHead noSignalParse "u" "x").map Product.price
        = some default_price
      ∧ default_price ≠ "" :=
  c2_missing_price_defaults constNetErrorHead noSignalParse "u" "x"
    (by decide) (by decide) rfl rfl rfl rfl

/-- C3, counterexample: a page whose JSON-LD offer declares OutOfStock while
a product-context container contains the phrase ships immediately extracts
as in stock: the later phrase tier overwrote the earlier JSON-LD answer, so
an earlier tier answer is not final. -/
theorem c3_counterexample :
    extractAvailability c3Page = "in stock"
      ∧ availFromJsonLd c3Page.jsonLdScripts = some "out of stock" :=
  ⟨rfl, rfl⟩

/-- C3, amended: the tiers run in order but later tiers overwrite earlier
answers; the JSON-LD answer is the result only when no sold-out selector
matches and no phrase of the table occurs in the product-context containers,
and the default is in stock. -/
theorem c3_jsonld_decides_when_later_tiers_silent (page : Page)
    (hsel : ∀ sel ∈ out_of_stock_selectors, page.select sel = [])
    (hph : ∀ p ∈ stock_phrases, ∀ e ∈ page.select product_context_selector,
        substrOf (lcStr p.1) (lcStr e.text) = false) :
    extractAvailability page = (availFromJsonLd page.jsonLdScripts).getD "in stock" := by
  unfold extractAvailability
  dsimp only
  have h2 : (out_of_stock_selectors.any (fun sel => !(page.select sel).isEmpty)) = false := by
    rw [List.any_eq_false]
    intro sel hm
    rw [hsel sel hm]
    simp
  have hcond : ∀ p ∈ stock_phrases,
      (page.select product_context_selector).any
        (fun e => substrOf (lcStr p.1) (lcStr e.text)) = false := by
    intro p hp
    rw [List.any_eq_false]
    intro e he
    rw [hph p hp e he]
    simp
  simp only [h2, Bool.false_eq_true, if_false]
  rw [phrase_fold_no_match page stock_phrases _ hcond]
  cases availFromJsonLd page.jsonLdScripts <;> rfl

/-- C3, witness for the amended theorem on a page with no availability
signal at all. -/
theorem c3_witness :
    extractAvailability emptyPage = (availFromJsonLd emptyPage.jsonLdScripts).getD "in stock" :=
  c3_jsonld_decides_when_later_tiers_silent emptyPage (by decide) (by decide)

/-- C4: the batch image validation returns exactly one record per input
record in order (same length, and every field except the image link is
preserved at every index); a record whose image link is missing, empty or
failing validation receives the fallback image; and when every fallback
option fails validation the fallback is the final static placeholder. -/
theorem c4_batch_one_to_one (head : String → HeadOutcome) (ps : List Product) :
    (batch_validate_images_for_meta head ps).length = ps.length
    ∧ (∀ (i : Nat) (ha : i < ps.length) (hb : i < (batch_validate_images_for_meta head ps).length),
        ((batch_validate_images_for_meta head ps).get ⟨i, hb⟩ =
          { ps.get ⟨i, ha⟩ with
              image_link := ((batch_validate_images_for_meta head ps).get ⟨i, hb⟩).image_link })
        ∧ (((ps.get ⟨i, ha⟩).image_link = none ∨ (ps.get ⟨i, ha⟩).image_link = some ""
              ∨ ∃ s, (ps.get ⟨i, ha⟩).image_link = some s
                  ∧ (validate_and_fix_image_url head s).1 = false) →
            ((batch_validate_images_for_meta head ps).get ⟨i, hb⟩).image_link
              = some (get_fallback_image_for_meta head)))
    ∧ ((∀ fb ∈ fallback_options, (validate_and_fix_image_url head fb).1 = false) →
        get_fallback_image_for_meta head = final_fallback_image) := by
  refine ⟨List.length_map ps (batch_step head), ?_, ?_⟩
  · intro i ha hb
    have hg : (batch_validate_images_for_meta head ps).get ⟨i, hb⟩
        = batch_step head (ps.get ⟨i, ha⟩) :=
      get_map_of_lt (batch_step head) ps i hb ha
    rw [hg]
    exact ⟨batch_step_fields head _, fun hfail => batch_step_fallback hfail⟩
  · intro hall
    unfold get_fallback_image_for_meta
    have hnone : fallback_options.findSome? (valid_url_of head) = none := by
      rw [List.findSome?_eq_none_iff]
      intro fb hfb
      unfold valid_url_of
      rcases hv : validate_and_fix_image_url head fb with ⟨b, w, e⟩
      have hbf := hall fb hfb
      rw [hv] at hbf
      dsimp only at hbf
      subst hbf
      cases w <;> rfl
    rw [hnone]

/-- C4, witness at a concrete input: one record with a missing image link on
a network where every HEAD request returns 404. -/
theorem c4_witness :
    ((batch_validate_images_for_meta notFoundHead [sampleProduct]).length
        = [sampleProduct].length)
    ∧ ((batch_validate_images_for_meta notFoundHead [sampleProduct]).get
          ⟨0, by decide⟩).image_link = some (get_fallback_image_for_meta notFoundHead)
    ∧ get_fallback_image_for_meta notFoundHead = final_fallback_image :=
  ⟨(c4_batch_one_to_one notFoundHead [sampleProduct]).1,
   ((c4_batch_one_to_one notFoundHead [sampleProduct]).2.1 0 (by decide) (by decide)).2
     (Or.inl rfl),
   (c4_batch_one_to_one notFoundHead [sampleProduct]).2.2 (by decide)⟩

set_option maxRecDepth 4000 in
/-- C5: for an empty extracted record set the run writes all eight feed
files (the four organized feeds and the four compatibility copies); every
CSV feed is exactly its header row (one newline-terminated line equal to
its header constant) and every XML feed has a matched root element with
zero item children. -/
theorem c5_empty_run_feeds :
    (empty_run_feed_writes.map Prod.fst =
      ["feeds/google/shopping_feed.csv", "feeds/google/shopping_feed.xml",
       "feeds/meta/shopping_feed.xml", "feeds/meta/shopping_feed.csv",
       "feeds/google_shopping_feed.csv", "feeds/google_shopping_feed.xml",
       "feeds/meta_shopping_feed.xml", "feeds/meta_shopping_feed.csv"])
    ∧ empty_run_feed_writes.all (fun w =>
        ((!(strEndsWith w.1 ".csv"))
          || ((newlineCount w.2 == 1) && strEndsWith w.2 "\n"
              && ((w.2 == google_csv_header) || (w.2 == meta_csv_header))))
        && ((!(strEndsWith w.1 ".xml"))
          || ((!(substrOf "<item" w.2)) && xmlHasRoot w.2))) = true :=
  ⟨rfl, by decide⟩

/-- C6, counterexample: with per-attempt outcomes failing on the first three
attempts and succeeding on a fourth, the fetcher returns None after exactly
3 total attempts; it does not make 3 additional attempts beyond the initial
one (a fourth attempt would have succeeded). -/
theorem c6_counterexample :
    get_page_content c6Fetch 3 = none ∧ fetch_attempts c6Fetch 3 = 3
      ∧ c6Fetch 3 = some "ok" :=
  ⟨rfl, rfl, rfl⟩

/-- C6, amended: the fetcher issues at most max_retries (default 3) total
GET attempts, the initial attempt plus at most 2 retries; the loop is a
total function, and when every attempt fails it returns None after exactly
max_retries attempts. -/
theorem c6_retry_bound (fetch : Nat → Option String) (m : Nat) :
    fetch_attempts fetch m ≤ m
    ∧ ((∀ n, n < m → fetch n = none) →
        get_page_content fetch m = none ∧ fetch_attempts fetch m = m) := by
  constructor
  · exact fetch_go_attempts_le fetch m 0
  · intro h
    have hall := fetch_go_all_none fetch m 0 (fun k hk1 hk2 => h k (by omega))
    unfold get_page_content fetch_attempts
    rw [hall]
    exact ⟨rfl, rfl⟩

/-- C6, witness for the amended theorem on always-failing outcomes. -/
theorem c6_witness :
    get_page_content (fun _ => none) 3 = none ∧ fetch_attempts (fun _ => none) 3 = 3 :=
  (c6_retry_bound (fun _ => none) 3).2 (fun _ _ => rfl)

/-- C7: for every image URL successfully coerced to HTTPS, when the HEAD
check fails with a transport error the validator returns ok together with
the HTTPS-corrected URL and no error message. -/
theorem c7_network_error_optimistic (head : String → HeadOutcome) (u url msg : String)
    (hu : u ≠ "") (hc : coerce_https u = Except.ok url)
    (hh : head url = HeadOutcome.netError msg) :
    validate_and_fix_image_url head u = (true, some url, none) := by
  unfold validate_and_fix_image_url
  rw [if_neg hu, hc]
  dsimp only
  rw [hh]

/-- C7, witness at a concrete plain-http URL on an unreachable network. -/
theorem c7_witness :
    validate_and_fix_image_url constNetErrorHead "http://a" = (true, some "https://a", none) :=
  c7_network_error_optimistic constNetErrorHead "http://a" "https://a" "connection refused"
    (by decide) rfl rfl

/-- C8: for every image URL beginning with the plain http scheme, the
corrected URL returned by the validator is https:// followed by exactly the
remainder of the original after the 7-character http:// prefix, for every
network behavior. -/
theorem c8_http_becomes_https (head : String → HeadOutcome) (u : String)
    (h : strStartsWith u "http://" = true) :
    (validate_and_fix_image_url head u).2.1 = some ⟨"https://".data ++ u.data.drop 7⟩ := by
  obtain ⟨t, ht⟩ := data_of_strStartsWith h
  have hdrop : u.data.drop 7 = t := by
    rw [ht]
    exact List.drop_left "http://".data t
  have h7 : "http://".data ≠ [] := by decide
  have hu : u ≠ "" :=
    ne_empty_of_data_ne_nil (by rw [ht]; exact fun hc => h7 (List.append_eq_nil.mp hc).1)
  have hc : coerce_https u = Except.ok ⟨"https://".data ++ t⟩ := by
    unfold coerce_https
    rw [if_pos h, pyReplaceFirst_on_prefixed (by decide) ht]
  rw [hdrop]
  exact validate_snd_of_coerce hu hc

/-- C8, witness at a concrete plain-http URL. -/
theorem c8_witness :
    (validate_and_fix_image_url constNetErrorHead "http://x.com/a.jpg").2.1
      = some "https://x.com/a.jpg" :=
  c8_http_becomes_https constNetErrorHead "http://x.com/a.jpg" (by decide)

/-- C9: field extraction is deterministic: two runs on the same URL, the
same page HTML (hence the same parse) and identical responses to the
external image-validation requests produce identical ProductRecords. -/
theorem c9_extractor_deterministic (head1 head2 : String → HeadOutcome)
    (parse1 parse2 : String → Page) (url1 url2 html1 html2 : String)
    (hh : head1 = head2) (hp : parse1 = parse2) (hu : url1 = url2) (hm : html1 = html2) :
    extract_product_data head1 parse1 url1 html1
      = extract_product_data head2 parse2 url2 html2 := by
  rw [hh, hp, hu, hm]

/-- C9, witness: the two runs coincide at a concrete input. -/
theorem c9_witness :
    extract_product_data constNetErrorHead noSignalParse "u" "x"
      = extract_product_data constNetErrorHead noSignalParse "u" "x" :=
  c9_extractor_deterministic constNetErrorHead constNetErrorHead noSignalParse noSignalParse
    "u" "u" "x" "x" rfl rfl rfl rfl

/-- C10: every record produced by the Meta batch image validation carries a
non-empty image link beginning with https:// -- every accepting path of the
validator and every fallback (including the final placeholder) yields an
HTTPS URL. -/
theorem c10_meta_batch_https (head : String → HeadOutcome) (ps : List Product) (p : Product)
    (hp : p ∈ batch_validate_images_for_meta head ps) :
    ∃ s, p.image_link = some s ∧ s ≠ "" ∧ strStartsWith s "https://" = true := by
  unfold batch_validate_images_for_meta at hp
  obtain ⟨q, hq, hpq⟩ := List.mem_map.mp hp
  rw [← hpq]
  exact batch_step_https head q

/-- C10, witness at a concrete record carrying a plain-http image link. -/
theorem c10_witness :
    ∃ s, ((batch_validate_images_for_meta constNetErrorHead [httpImageProduct]).get
        ⟨0, by decide⟩).image_link = some s
      ∧ s ≠ "" ∧ strStartsWith s "https://" = true :=
  c10_meta_batch_https constNetErrorHead [httpImageProduct] _
    (List.get_mem _ 0 (by decide))

end Crawler
